import Mathlib

/-!
Verification development for the Mempool RBF Tracker
(main_Batch_WAL_new.py): a shallow embedding of its SQLite store,
the replacement detector, the retention purge, the ingestion
pipeline (batch worker) and the poller, together with theorems
about the claims of the specification.

Modelling conventions:
* SQLite tables become Lean lists of row structures; row order is
  insertion order (the tables are only ever scanned, never sorted).
* INSERT OR IGNORE against a PRIMARY KEY becomes a guarded append.
  SQLite treats NULL as distinct from every value (including NULL)
  when checking UNIQUE/PRIMARY KEY constraints, so key comparison on
  nullable TEXT columns uses sqlNullEq, which is never true on NULL.
* SELECT DISTINCT collapses NULLs into one (IS-distinctness), so it
  is modelled with List.dedup over Option String.
* datetime.utcnow().isoformat() timestamps are threaded as explicit
  String parameters; SQLite compares TEXT lexicographically, which
  is Lean's String.lt.
* Python exceptions (KeyError on a missing required JSON field,
  TypeError on ordering None) are modelled with Except String; an
  .error result means the exception propagates out of the function.
-/

namespace RBFTracker

/-- sequence threshold for opt-in RBF (RBF_SEQ_THRESHOLD in the source). -/
def RBF_SEQ_THRESHOLD : Nat := 0xFFFFFFFE

/-- Row of table tx: txid TEXT PRIMARY KEY, fetched_at TEXT, fee INTEGER, vsize INTEGER. -/
structure TxRow where
  txid : String
  fetched_at : String
  fee : Int
  vsize : Int
deriving DecidableEq, Repr

/-- Row of table tx_inputs (no primary key): txid, prev_txid, prev_vout,
address (nullable), value (nullable), sequence. -/
structure TxInputRow where
  txid : String
  prev_txid : String
  prev_vout : Nat
  address : Option String
  value : Option Int
  sequence : Nat
deriving DecidableEq, Repr

/-- Row of table tx_outputs (no primary key): txid, vout_index,
address (nullable), value (nullable). -/
structure TxOutputRow where
  txid : String
  vout_index : Nat
  address : Option String
  value : Option Int
deriving DecidableEq, Repr

/-- Row of table rbf_txs: txid TEXT PRIMARY KEY, added_at TEXT. -/
structure RbfRow where
  txid : String
  added_at : String
deriving DecidableEq, Repr

/-- Row of table replacements, PRIMARY KEY(orig_txid, new_txid,
change_address, change_vout_index). -/
structure ReplacementRow where
  orig_txid : String
  new_txid : String
  change_address : Option String
  change_vout_index : Nat
  old_value : Int
  new_value : Int
  diff : Int
  detected_at : String
deriving DecidableEq, Repr

/-- Row of table change_inputs, PRIMARY KEY(orig_txid, new_txid,
change_address, input_address, change_vout_index). -/
structure ChangeInputRow where
  orig_txid : String
  new_txid : String
  change_address : Option String
  change_vout_index : Nat
  input_address : Option String
  detected_at : String
deriving DecidableEq, Repr

/-- The whole SQLite database created by init_db. -/
structure Store where
  tx : List TxRow
  tx_inputs : List TxInputRow
  tx_outputs : List TxOutputRow
  rbf_txs : List RbfRow
  replacements : List ReplacementRow
  change_inputs : List ChangeInputRow
deriving DecidableEq, Repr

/-- The freshly initialised database (all tables empty). -/
def emptyStore : Store := ⟨[], [], [], [], [], []⟩

/-- SQL equality on a nullable TEXT column as used by UNIQUE/PRIMARY KEY
constraint checks: NULL is distinct from everything, including NULL. -/
def sqlNullEq (a b : Option String) : Bool :=
  match a, b with
  | some x, some y => x == y
  | _, _ => false

/-- Key comparison for the replacements primary key. -/
def replKeyEq (a b : ReplacementRow) : Bool :=
  a.orig_txid == b.orig_txid && a.new_txid == b.new_txid &&
    sqlNullEq a.change_address b.change_address &&
    a.change_vout_index == b.change_vout_index

/-- Key comparison for the change_inputs primary key. -/
def ciKeyEq (a b : ChangeInputRow) : Bool :=
  a.orig_txid == b.orig_txid && a.new_txid == b.new_txid &&
    sqlNullEq a.change_address b.change_address &&
    sqlNullEq a.input_address b.input_address &&
    a.change_vout_index == b.change_vout_index

/-- INSERT OR IGNORE INTO tx (PRIMARY KEY txid). -/
def insertOrIgnoreTx (l : List TxRow) (r : TxRow) : List TxRow :=
  if l.any (fun x => x.txid == r.txid) then l else l ++ [r]

/-- INSERT OR IGNORE INTO rbf_txs (PRIMARY KEY txid). -/
def insertOrIgnoreRbf (l : List RbfRow) (r : RbfRow) : List RbfRow :=
  if l.any (fun x => x.txid == r.txid) then l else l ++ [r]

/-- INSERT OR IGNORE INTO replacements. -/
def insertOrIgnoreRepl (l : List ReplacementRow) (r : ReplacementRow) :
    List ReplacementRow :=
  if l.any (fun x => replKeyEq x r) then l else l ++ [r]

/-- INSERT OR IGNORE INTO change_inputs. -/
def insertOrIgnoreCI (l : List ChangeInputRow) (r : ChangeInputRow) :
    List ChangeInputRow :=
  if l.any (fun x => ciKeyEq x r) then l else l ++ [r]

/-- Python dict assignment d[k] = v: overwrite in place if the key is
present (a Python dict keeps the original key position), else append. -/
def dictInsert (d : List (Nat × Option String × Option Int)) (k : Nat)
    (v : Option String × Option Int) : List (Nat × Option String × Option Int) :=
  if d.any (fun p => p.1 == k) then
    d.map (fun p => if p.1 == k then (k, v) else p)
  else d ++ [(k, v)]

/-- SELECT vout_index, address, value FROM tx_outputs WHERE txid=?,
loaded into the dict comprehension at the start of record_replacement. -/
def outputsDict (s : Store) (t : String) : List (Nat × Option String × Option Int) :=
  (s.tx_outputs.filter (fun r => r.txid == t)).foldl
    (fun d r => dictInsert d r.vout_index (r.address, r.value)) []

/-- set(orig_by_idx.keys()) == set(new_by_idx.keys()). -/
def keySetEq (d1 d2 : List (Nat × Option String × Option Int)) : Bool :=
  d1.all (fun p => d2.any (fun q => q.1 == p.1)) &&
    d2.all (fun p => d1.any (fun q => q.1 == p.1))

/-- The address-mismatch early return of record_replacement: some index
of the original dict carries a different address in the new dict. -/
def addrMismatch (d1 d2 : List (Nat × Option String × Option Int)) : Bool :=
  d1.any (fun p =>
    match d2.lookup p.1 with
    | some q => !(p.2.1 == q.1)
    | none => false)

/-- The diffs list of record_replacement: indices of the original dict
whose value differs in the new dict, with address and both values. -/
def valueDiffs (d1 d2 : List (Nat × Option String × Option Int)) :
    List (Nat × Option String × Option Int × Option Int) :=
  d1.filterMap (fun p =>
    match d2.lookup p.1 with
    | some q => if p.2.2 == q.2 then none else some (p.1, p.2.1, p.2.2, q.2)
    | none => none)

/-- SELECT DISTINCT address FROM tx_inputs WHERE txid=?  (SELECT DISTINCT
collapses NULLs into a single NULL, hence plain dedup over Option). -/
def distinctInputAddrs (s : Store) (t : String) : List (Option String) :=
  ((s.tx_inputs.filter (fun r => r.txid == t)).map (fun r => r.address)).dedup

/-- record_replacement(orig_txid, new_txid, conn): records a replacement
only when both transactions have exactly the same vout_index key set,
identical addresses at every index, exactly one output value changed,
and that change is a shrink (old > new).  The timestamp ts stands for
datetime.utcnow().isoformat().  An .error result models the Python
TypeError raised when the single differing index compares a NULL value
(None is unorderable against an int). -/
def record_replacement (orig_txid new_txid ts : String) (s : Store) :
    Except String Store :=
  let dO := outputsDict s orig_txid
  let dN := outputsDict s new_txid
  if !keySetEq dO dN then .ok s
  else if addrMismatch dO dN then .ok s
  else
    match valueDiffs dO dN with
    | [(change_idx, change_addr, oval, nval)] =>
      match oval, nval with
      | some old_val, some new_val =>
        if new_val ≥ old_val then .ok s
        else
          let ev : ReplacementRow :=
            ⟨orig_txid, new_txid, change_addr, change_idx,
              old_val, new_val, old_val - new_val, ts⟩
          let repl := insertOrIgnoreRepl s.replacements ev
          let cis := (distinctInputAddrs s orig_txid).foldl
            (fun l inp =>
              insertOrIgnoreCI l
                ⟨orig_txid, new_txid, change_addr, change_idx, inp, ts⟩)
            s.change_inputs
          .ok { s with replacements := repl, change_inputs := cis }
      | _, _ => .error "TypeError: not supported between instances"
    | _ => .ok s

/-- Lexicographic comparison of two character lists by codepoint, the
order SQLite uses when comparing TEXT values with < (memcmp on UTF-8
agrees with codepoint order). -/
def charListLt : List Char → List Char → Bool
  | [], [] => false
  | [], _ :: _ => true
  | _ :: _, [] => false
  | a :: as, b :: bs =>
    if a.toNat < b.toNat then true
    else if b.toNat < a.toNat then false
    else charListLt as bs

/-- SQLite TEXT comparison a < b, applied to the ISO timestamp strings. -/
def sqlTextLt (a b : String) : Bool := charListLt a.data b.data

/-- purge_old(conn): cutoff stands for
(datetime.utcnow() - timedelta(days=HISTORY_DAYS)).isoformat().
Deletes old tx rows first, then the tx_inputs/tx_outputs rows whose
txid no longer appears in tx, then old rbf_txs and replacements rows.
change_inputs is untouched. -/
def purge_old (cutoff : String) (s : Store) : Store :=
  let txKeep := s.tx.filter (fun r => !sqlTextLt r.fetched_at cutoff)
  { tx := txKeep,
    tx_inputs := s.tx_inputs.filter (fun r => txKeep.any (fun t => t.txid == r.txid)),
    tx_outputs := s.tx_outputs.filter (fun r => txKeep.any (fun t => t.txid == r.txid)),
    rbf_txs := s.rbf_txs.filter (fun r => !sqlTextLt r.added_at cutoff),
    replacements := s.replacements.filter (fun r => !sqlTextLt r.detected_at cutoff),
    change_inputs := s.change_inputs }

/-! Transaction JSON as returned by GET /tx/{txid}.  Every field the
source reads with .get(...) is Option-typed; vin["txid"] and
vin["vout"] are read with indexing and raise KeyError when absent,
modelled below by reqStr/reqNat returning .error. -/

/-- The prevout object of an input, read with prev.get(...). -/
structure PrevoutJson where
  scriptpubkey_address : Option String
  value : Option Int
deriving DecidableEq, Repr

/-- One element of the vin array. -/
structure VinJson where
  txid : Option String
  vout : Option Nat
  sequence : Option Nat
  prevout : Option PrevoutJson
deriving DecidableEq, Repr

/-- One element of the vout array. -/
structure VoutJson where
  scriptpubkey_address : Option String
  value : Option Int
deriving DecidableEq, Repr

/-- The transaction JSON object. -/
structure TxJson where
  fee : Option Int
  vsize : Option Int
  vin : List VinJson
  vout : List VoutJson
deriving DecidableEq, Repr

/-- vin["txid"]: raises KeyError when the field is absent. -/
def reqStr (o : Option String) : Except String String :=
  match o with
  | some v => .ok v
  | none => .error "KeyError: txid"

/-- vin["vout"]: raises KeyError when the field is absent. -/
def reqNat (o : Option Nat) : Except String Nat :=
  match o with
  | some v => .ok v
  | none => .error "KeyError: vout"

/-- vin.get("prevout", \x7b\x7d).get("scriptpubkey_address"). -/
def vinPrevAddr (v : VinJson) : Option String :=
  v.prevout.bind (fun p => p.scriptpubkey_address)

/-- vin.get("prevout", \x7b\x7d).get("value"). -/
def vinPrevValue (v : VinJson) : Option Int :=
  v.prevout.bind (fun p => p.value)

/-- The input-insertion loop of process_added_nocommit: one plain INSERT
INTO tx_inputs per vin element, with sequence defaulting to 0; KeyError
on a missing txid/vout field aborts the loop. -/
def insertInputs (txid : String) (vins : List VinJson) (s : Store) :
    Except String Store :=
  match vins with
  | [] => .ok s
  | vin :: rest =>
    match reqStr vin.txid with
    | .error e => .error e
    | .ok pt =>
      match reqNat vin.vout with
      | .error e => .error e
      | .ok pv =>
        insertInputs txid rest
          { s with tx_inputs := s.tx_inputs ++
              [⟨txid, pt, pv, vinPrevAddr vin, vinPrevValue vin,
                vin.sequence.getD 0⟩] }

/-- The inner loop over prior candidates: for each orig_txid returned by
the join query, call record_replacement unless it is the new tx itself. -/
def recordAll (ts new_txid : String) (origs : List String) (s : Store) :
    Except String Store :=
  match origs with
  | [] => .ok s
  | o :: rest =>
    if o = new_txid then recordAll ts new_txid rest s
    else
      match record_replacement o new_txid ts s with
      | .error e => .error e
      | .ok s1 => recordAll ts new_txid rest s1

/-- The detection loop of process_added_nocommit: for every input of the
new RBF transaction, SELECT ti.txid FROM tx_inputs ti JOIN rbf_txs r ON
ti.txid = r.txid WHERE ti.prev_txid = ? AND ti.prev_vout = ?, then feed
each returned orig txid to record_replacement. -/
def detectLoop (ts new_txid : String) (vins : List VinJson) (s : Store) :
    Except String Store :=
  match vins with
  | [] => .ok s
  | vin :: rest =>
    match reqStr vin.txid with
    | .error e => .error e
    | .ok pt =>
      match reqNat vin.vout with
      | .error e => .error e
      | .ok pv =>
        let origs := ((s.tx_inputs.filter (fun ti =>
            ti.prev_txid == pt && ti.prev_vout == pv &&
              s.rbf_txs.any (fun r => r.txid == ti.txid))).map
          (fun ti => ti.txid))
        match recordAll ts new_txid origs s with
        | .error e => .error e
        | .ok s1 => detectLoop ts new_txid rest s1

/-- process_added_nocommit(txid, conn).  fetch models fetch_tx: none is
the swallowed fetch failure (404 / HTTP / network error), some tx a
successful fetch.  ts stands for datetime.utcnow().isoformat().
Inserts the tx row (OR IGNORE), all input rows (computing is_rbf along
the way), all output rows (plain INSERT with enumerate indices), and if
is_rbf, the rbf_txs row followed by the detection loop. -/
def process_added_nocommit (fetch : String → Option TxJson) (ts txid : String)
    (s : Store) : Except String Store :=
  match fetch txid with
  | none => .ok s
  | some tx =>
    let s1 : Store :=
      { s with tx := insertOrIgnoreTx s.tx (⟨txid, ts, tx.fee.getD 0, tx.vsize.getD 0⟩ : TxRow) }
    match insertInputs txid tx.vin s1 with
    | .error e => .error e
    | .ok s2 =>
      let is_rbf := tx.vin.any (fun vin => vin.sequence.getD 0 < RBF_SEQ_THRESHOLD)
      let s3 : Store :=
        { s2 with tx_outputs := s2.tx_outputs ++
            tx.vout.enum.map (fun p => ⟨txid, p.1, p.2.scriptpubkey_address, p.2.value⟩) }
      if is_rbf then
        detectLoop ts txid tx.vin
          { s3 with rbf_txs := insertOrIgnoreRbf s3.rbf_txs ⟨txid, ts⟩ }
      else .ok s3

/-- BatchWorker._flush_batch: process every buffered txid in order, then
commit (the commit itself has no observable effect in this model).  An
uncaught exception in process_added_nocommit propagates and aborts the
remaining txids of the batch. -/
def flushBatch (fetch : String → Option TxJson) (ts : String) :
    List String → Store → Except String Store
  | [], s => .ok s
  | t :: rest, s =>
    match process_added_nocommit fetch ts t s with
    | .error e => .error e
    | .ok s1 => flushBatch fetch ts rest s1

/-- The events of the ingestion queue. -/
inductive Event where
  | added (txid : String)
  | purge
  | stop
deriving DecidableEq, Repr

/-- The mutable state of the BatchWorker thread: its in-memory buffer,
the store behind its connection, and whether conn.close() has run. -/
structure WorkerState where
  buffer : List String
  store : Store
  closed : Bool
deriving DecidableEq, Repr

/-- BatchWorker.run over a finite prefix of the queue: added events are
buffered and flushed when the buffer reaches batch_size; purge runs
purge_old; stop flushes the remaining buffer (the finally block),
commits, closes the connection and terminates, leaving later events
unread.  An empty event list models the worker still blocked on the
queue.  An .error models an uncaught exception killing the thread. -/
def workerRun (fetch : String → Option TxJson) (ts cutoff : String)
    (batch_size : Nat) : List Event → WorkerState → Except String WorkerState
  | [], st => .ok st
  | Event.added t :: rest, st =>
    let buf := st.buffer ++ [t]
    if batch_size ≤ buf.length then
      match flushBatch fetch ts buf st.store with
      | .error e => .error e
      | .ok s1 => workerRun fetch ts cutoff batch_size rest ⟨[], s1, st.closed⟩
    else workerRun fetch ts cutoff batch_size rest ⟨buf, st.store, st.closed⟩
  | Event.purge :: rest, st =>
    workerRun fetch ts cutoff batch_size rest
      ⟨st.buffer, purge_old cutoff st.store, st.closed⟩
  | Event.stop :: _, st =>
    match flushBatch fetch ts st.buffer st.store with
    | .error e => .error e
    | .ok s1 => .ok ⟨[], s1, true⟩

/-- The Poller thread's state: the baseline snapshot self.last. -/
structure PollerState where
  last : List String
deriving DecidableEq, Repr

/-- The start of Poller.run: the initial snapshot fetch happens OUTSIDE
the try/except of the polling loop, so a fetch failure (modelled as an
incoming .error) propagates and terminates the thread.  On success it
emits an added event for every id of the snapshot and installs the
baseline. -/
def pollerInit (fetched : Except String (List String)) :
    Except String (PollerState × List Event) :=
  match fetched with
  | .error e => .error e
  | .ok ids => .ok (⟨ids⟩, ids.map Event.added)

/-- One iteration of the steady-state polling loop of Poller.run: a
fetch failure is caught, logged and swallowed (state unchanged, no
events); on success, an added event is emitted for every id not in the
baseline and the baseline is replaced by the new snapshot. -/
def pollerStep (fetched : Except String (List String)) (st : PollerState) :
    PollerState × List Event :=
  match fetched with
  | .error _ => (st, [])
  | .ok ids =>
    (⟨ids⟩, (ids.filter (fun t => !st.last.contains t)).map Event.added)

end RBFTracker

namespace RBFTracker

/-! Helper lemmas about the idempotent inserts. -/

theorem mem_insertOrIgnoreTx {l : List TxRow} {r a : TxRow} (h : a ∈ l) :
    a ∈ insertOrIgnoreTx l r := by
  unfold insertOrIgnoreTx
  split
  · exact h
  · exact List.mem_append_left _ h

theorem insertOrIgnoreTx_exists (l : List TxRow) (r : TxRow) :
    ∃ x ∈ insertOrIgnoreTx l r, x.txid = r.txid := by
  unfold insertOrIgnoreTx
  split
  case isTrue h =>
    obtain ⟨x, hx, hbeq⟩ := List.any_eq_true.mp h
    exact ⟨x, hx, by simpa using hbeq⟩
  case isFalse h =>
    exact ⟨r, List.mem_append_right _ (List.mem_singleton.mpr rfl), rfl⟩

theorem insertOrIgnoreTx_of_fresh {l : List TxRow} {r : TxRow}
    (h : ∀ x ∈ l, x.txid ≠ r.txid) : insertOrIgnoreTx l r = l ++ [r] := by
  have hany : (l.any (fun x => x.txid == r.txid)) = false := by
    rw [List.any_eq_false]
    intro x hx
    simpa using h x hx
  unfold insertOrIgnoreTx
  rw [hany]
  simp

theorem mem_insertOrIgnoreRbf {l : List RbfRow} {r a : RbfRow} (h : a ∈ l) :
    a ∈ insertOrIgnoreRbf l r := by
  unfold insertOrIgnoreRbf
  split
  · exact h
  · exact List.mem_append_left _ h

theorem insertOrIgnoreRbf_exists (l : List RbfRow) (r : RbfRow) :
    ∃ x ∈ insertOrIgnoreRbf l r, x.txid = r.txid := by
  unfold insertOrIgnoreRbf
  split
  case isTrue h =>
    obtain ⟨x, hx, hbeq⟩ := List.any_eq_true.mp h
    exact ⟨x, hx, by simpa using hbeq⟩
  case isFalse h =>
    exact ⟨r, List.mem_append_right _ (List.mem_singleton.mpr rfl), rfl⟩

theorem insertOrIgnoreRepl_of_fresh {l : List ReplacementRow} {r : ReplacementRow}
    (h : ∀ x ∈ l, replKeyEq x r = false) : insertOrIgnoreRepl l r = l ++ [r] := by
  have hany : (l.any (fun x => replKeyEq x r)) = false := by
    rw [List.any_eq_false]
    intro x hx
    simp [h x hx]
  unfold insertOrIgnoreRepl
  rw [hany]
  simp

theorem insertOrIgnoreCI_of_fresh {l : List ChangeInputRow} {r : ChangeInputRow}
    (h : ∀ x ∈ l, ciKeyEq x r = false) : insertOrIgnoreCI l r = l ++ [r] := by
  have hany : (l.any (fun x => ciKeyEq x r)) = false := by
    rw [List.any_eq_false]
    intro x hx
    simp [h x hx]
  unfold insertOrIgnoreCI
  rw [hany]
  simp

/-! Frame lemmas: which tables each operation leaves untouched. -/

theorem record_replacement_frame {o n ts : String} {s s1 : Store}
    (h : record_replacement o n ts s = .ok s1) :
    s1.tx = s.tx ∧ s1.tx_inputs = s.tx_inputs ∧ s1.tx_outputs = s.tx_outputs ∧
      s1.rbf_txs = s.rbf_txs := by
  simp only [record_replacement] at h
  split at h
  · cases Except.ok.inj h; exact ⟨rfl, rfl, rfl, rfl⟩
  · split at h
    · cases Except.ok.inj h; exact ⟨rfl, rfl, rfl, rfl⟩
    · split at h
      · split at h
        · split at h
          · cases Except.ok.inj h; exact ⟨rfl, rfl, rfl, rfl⟩
          · cases Except.ok.inj h; exact ⟨rfl, rfl, rfl, rfl⟩
        · cases h
      · cases Except.ok.inj h; exact ⟨rfl, rfl, rfl, rfl⟩

theorem recordAll_frame {ts n : String} :
    ∀ {origs : List String} {s s1 : Store}, recordAll ts n origs s = .ok s1 →
      s1.tx = s.tx ∧ s1.tx_inputs = s.tx_inputs ∧ s1.tx_outputs = s.tx_outputs ∧
        s1.rbf_txs = s.rbf_txs := by
  intro origs
  induction origs with
  | nil =>
    intro s s1 h
    cases Except.ok.inj h
    exact ⟨rfl, rfl, rfl, rfl⟩
  | cons o rest ih =>
    intro s s1 h
    simp only [recordAll] at h
    split at h
    · exact ih h
    · cases hr : record_replacement o n ts s with
      | error e => simp only [hr] at h; cases h
      | ok s2 =>
        simp only [hr] at h
        obtain ⟨e1, e2, e3, e4⟩ := ih h
        obtain ⟨f1, f2, f3, f4⟩ := record_replacement_frame hr
        exact ⟨e1.trans f1, e2.trans f2, e3.trans f3, e4.trans f4⟩

theorem detectLoop_frame {ts n : String} :
    ∀ {vins : List VinJson} {s s1 : Store}, detectLoop ts n vins s = .ok s1 →
      s1.tx = s.tx ∧ s1.tx_inputs = s.tx_inputs ∧ s1.tx_outputs = s.tx_outputs ∧
        s1.rbf_txs = s.rbf_txs := by
  intro vins
  induction vins with
  | nil =>
    intro s s1 h
    cases Except.ok.inj h
    exact ⟨rfl, rfl, rfl, rfl⟩
  | cons vin rest ih =>
    intro s s1 h
    simp only [detectLoop] at h
    cases hts : reqStr vin.txid with
    | error e => simp only [hts] at h; cases h
    | ok pt =>
      simp only [hts] at h
      cases hvs : reqNat vin.vout with
      | error e => simp only [hvs] at h; cases h
      | ok pv =>
        simp only [hvs] at h
        cases hra : recordAll ts n (((s.tx_inputs.filter (fun ti =>
            ti.prev_txid == pt && ti.prev_vout == pv &&
              s.rbf_txs.any (fun r => r.txid == ti.txid))).map (fun ti => ti.txid))) s with
        | error e => simp only [hra] at h; cases h
        | ok s2 =>
          simp only [hra] at h
          obtain ⟨e1, e2, e3, e4⟩ := ih h
          obtain ⟨f1, f2, f3, f4⟩ := recordAll_frame hra
          exact ⟨e1.trans f1, e2.trans f2, e3.trans f3, e4.trans f4⟩

theorem insertInputs_frame {t : String} :
    ∀ {vins : List VinJson} {s s1 : Store}, insertInputs t vins s = .ok s1 →
      s1.tx = s.tx ∧ s1.tx_outputs = s.tx_outputs ∧ s1.rbf_txs = s.rbf_txs ∧
        s1.replacements = s.replacements ∧ s1.change_inputs = s.change_inputs := by
  intro vins
  induction vins with
  | nil =>
    intro s s1 h
    cases Except.ok.inj h
    exact ⟨rfl, rfl, rfl, rfl, rfl⟩
  | cons vin rest ih =>
    intro s s1 h
    simp only [insertInputs] at h
    cases hts : reqStr vin.txid with
    | error e => simp only [hts] at h; cases h
    | ok pt =>
      simp only [hts] at h
      cases hvs : reqNat vin.vout with
      | error e => simp only [hvs] at h; cases h
      | ok pv =>
        simp only [hvs] at h
        obtain ⟨e1, e2, e3, e4, e5⟩ := ih h
        exact ⟨e1, e2, e3, e4, e5⟩

/-! Structural lemmas about process_added_nocommit and flushBatch. -/

theorem process_ok_none {fetch : String → Option TxJson} {ts t : String}
    {s s1 : Store} (hf : fetch t = none)
    (hp : process_added_nocommit fetch ts t s = .ok s1) : s1 = s := by
  simp only [process_added_nocommit, hf] at hp
  exact (Except.ok.inj hp).symm

theorem process_ok_struct {fetch : String → Option TxJson} {ts t : String}
    {s s1 : Store} {tx : TxJson} (hf : fetch t = some tx)
    (hp : process_added_nocommit fetch ts t s = .ok s1) :
    s1.tx = insertOrIgnoreTx s.tx ⟨t, ts, tx.fee.getD 0, tx.vsize.getD 0⟩ ∧
    s1.tx_outputs = s.tx_outputs ++
      tx.vout.enum.map (fun p => ⟨t, p.1, p.2.scriptpubkey_address, p.2.value⟩) ∧
    s1.rbf_txs = (if tx.vin.any (fun vin => vin.sequence.getD 0 < RBF_SEQ_THRESHOLD)
      then insertOrIgnoreRbf s.rbf_txs ⟨t, ts⟩ else s.rbf_txs) ∧
    (tx.vin.any (fun vin => vin.sequence.getD 0 < RBF_SEQ_THRESHOLD) = false →
      s1.replacements = s.replacements ∧ s1.change_inputs = s.change_inputs) := by
  simp only [process_added_nocommit, hf] at hp
  cases hins : insertInputs t tx.vin
      { s with tx := insertOrIgnoreTx s.tx (⟨t, ts, tx.fee.getD 0, tx.vsize.getD 0⟩ : TxRow) } with
  | error e => simp only [hins] at hp; cases hp
  | ok s2 =>
    simp only [hins] at hp
    obtain ⟨f1, f2, f3, f4, f5⟩ := insertInputs_frame hins
    by_cases hrbf : tx.vin.any (fun vin => vin.sequence.getD 0 < RBF_SEQ_THRESHOLD) = true
    · simp only [hrbf, if_true] at hp
      obtain ⟨d1, d2, d3, d4⟩ := detectLoop_frame hp
      refine ⟨d1.trans f1, ?_, ?_, ?_⟩
      · have h2 : s2.tx_outputs ++
            tx.vout.enum.map (fun p => (⟨t, p.1, p.2.scriptpubkey_address, p.2.value⟩ : TxOutputRow)) =
            s.tx_outputs ++
            tx.vout.enum.map (fun p => (⟨t, p.1, p.2.scriptpubkey_address, p.2.value⟩ : TxOutputRow)) := by
          rw [f2]
        exact d3.trans h2
      · rw [if_pos hrbf]
        have h3 : insertOrIgnoreRbf s2.rbf_txs (⟨t, ts⟩ : RbfRow) =
            insertOrIgnoreRbf s.rbf_txs (⟨t, ts⟩ : RbfRow) := by rw [f3]
        exact d4.trans h3
      · intro hfalse
        rw [hrbf] at hfalse
        cases hfalse
    · have hrbf2 : tx.vin.any (fun vin => vin.sequence.getD 0 < RBF_SEQ_THRESHOLD) = false :=
        Bool.not_eq_true _ ▸ Bool.eq_false_iff.mpr hrbf
      simp only [hrbf2, if_false] at hp
      cases Except.ok.inj hp
      refine ⟨f1, ?_, ?_, ?_⟩
      · rw [f2]
      · rw [if_neg hrbf]
        exact f3
      · intro _
        exact ⟨f4, f5⟩

theorem process_ok_tx_mono {fetch : String → Option TxJson} {ts t : String}
    {s s1 : Store} (hp : process_added_nocommit fetch ts t s = .ok s1) :
    ∀ r ∈ s.tx, r ∈ s1.tx := by
  intro r hr
  cases hf : fetch t with
  | none => rw [process_ok_none hf hp]; exact hr
  | some tx =>
    obtain ⟨h1, _, _, _⟩ := process_ok_struct hf hp
    rw [h1]
    exact mem_insertOrIgnoreTx hr

theorem process_ok_tx_present {fetch : String → Option TxJson} {ts t : String}
    {s s1 : Store} {tx : TxJson} (hf : fetch t = some tx)
    (hp : process_added_nocommit fetch ts t s = .ok s1) :
    ∃ r ∈ s1.tx, r.txid = t := by
  obtain ⟨h1, _, _, _⟩ := process_ok_struct hf hp
  rw [h1]
  exact insertOrIgnoreTx_exists _ _

theorem flushBatch_tx_mono {fetch : String → Option TxJson} {ts : String} :
    ∀ {buf : List String} {s s1 : Store}, flushBatch fetch ts buf s = .ok s1 →
      ∀ r ∈ s.tx, r ∈ s1.tx := by
  intro buf
  induction buf with
  | nil =>
    intro s s1 h r hr
    cases Except.ok.inj h
    exact hr
  | cons t rest ih =>
    intro s s1 h r hr
    simp only [flushBatch] at h
    cases hp : process_added_nocommit fetch ts t s with
    | error e => simp only [hp] at h; cases h
    | ok s2 =>
      simp only [hp] at h
      exact ih h r (process_ok_tx_mono hp r hr)

theorem flushBatch_tx_present {fetch : String → Option TxJson} {ts : String} :
    ∀ {buf : List String} {s s1 : Store}, flushBatch fetch ts buf s = .ok s1 →
      ∀ t ∈ buf, (fetch t).isSome = true → ∃ r ∈ s1.tx, r.txid = t := by
  intro buf
  induction buf with
  | nil =>
    intro s s1 h t ht
    cases ht
  | cons t0 rest ih =>
    intro s s1 h t ht hsome
    simp only [flushBatch] at h
    cases hp : process_added_nocommit fetch ts t0 s with
    | error e => simp only [hp] at h; cases h
    | ok s2 =>
      simp only [hp] at h
      rcases List.mem_cons.mp ht with rfl | htr
      · obtain ⟨tx, htx⟩ := Option.isSome_iff_exists.mp hsome
        obtain ⟨r, hr, hrt⟩ := process_ok_tx_present htx hp
        exact ⟨r, flushBatch_tx_mono h r hr, hrt⟩
      · exact ih h t htr hsome


/-! Lemmas for the change_inputs fold of record_replacement. -/

theorem sqlNullEq_eq_false_of_ne {a b : Option String} (h : a ≠ b) :
    sqlNullEq a b = false := by
  unfold sqlNullEq
  cases a with
  | none => cases b <;> rfl
  | some x =>
    cases b with
    | none => rfl
    | some y =>
      simp only [beq_eq_false_iff_ne, ne_eq]
      intro hxy
      exact h (by rw [hxy])

theorem foldCI_eq_append (o n ts : String) (a : Option String) (i : Nat) :
    ∀ (addrs : List (Option String)) (base : List ChangeInputRow),
      addrs.Nodup →
      (∀ r ∈ base, ∀ inp ∈ addrs, ciKeyEq r ⟨o, n, a, i, inp, ts⟩ = false) →
      addrs.foldl (fun l inp => insertOrIgnoreCI l ⟨o, n, a, i, inp, ts⟩) base =
        base ++ addrs.map (fun inp => ⟨o, n, a, i, inp, ts⟩) := by
  intro addrs
  induction addrs with
  | nil =>
    intro base _ _
    simp
  | cons inp0 rest ih =>
    intro base hnd hbase
    simp only [List.foldl_cons, List.map_cons]
    have hins : insertOrIgnoreCI base ⟨o, n, a, i, inp0, ts⟩ =
        base ++ [⟨o, n, a, i, inp0, ts⟩] :=
      insertOrIgnoreCI_of_fresh (fun x hx => hbase x hx inp0 (List.mem_cons_self _ _))
    rw [hins]
    have hnd2 := List.nodup_cons.mp hnd
    have hside : ∀ r ∈ base ++ [(⟨o, n, a, i, inp0, ts⟩ : ChangeInputRow)],
        ∀ inp ∈ rest, ciKeyEq r ⟨o, n, a, i, inp, ts⟩ = false := by
      intro r hr inp hinp
      rcases List.mem_append.mp hr with hrb | hr0
      · exact hbase r hrb inp (List.mem_cons_of_mem _ hinp)
      · have hr0 : r = ⟨o, n, a, i, inp0, ts⟩ := List.mem_singleton.mp hr0
        subst hr0
        have hne : inp0 ≠ inp := fun he => hnd2.1 (he ▸ hinp)
        simp [ciKeyEq, sqlNullEq_eq_false_of_ne hne]
    rw [ih (base ++ [(⟨o, n, a, i, inp0, ts⟩ : ChangeInputRow)]) hnd2.2 hside]
    simp

end RBFTracker
namespace RBFTracker

/-! Claim theorems. -/

/-- C1: For every pair (orig_txid, new_txid) whose persisted outputs have
equal index sets, identical addresses at every index, and exactly one index
whose value differs with the new value strictly less than the old,
record_replacement records exactly one ReplacementEvent whose change_address
and change_vout_index are those of the differing index, with old_value,
new_value, and diff = old_value - new_value, plus one ChangeInputMapping row
per distinct input address of orig_txid.  The freshness hypotheses say the
pair has not been recorded before, so exactly the shown rows are appended
and every other table is untouched. -/
theorem record_replacement_single_shrink {s : Store} {o n ts : String}
    {i : Nat} {a : Option String} {ov nv : Int}
    (hk : keySetEq (outputsDict s o) (outputsDict s n) = true)
    (ha : addrMismatch (outputsDict s o) (outputsDict s n) = false)
    (hd : valueDiffs (outputsDict s o) (outputsDict s n) = [(i, a, some ov, some nv)])
    (hlt : nv < ov)
    (hfr : ∀ r ∈ s.replacements, ¬(r.orig_txid = o ∧ r.new_txid = n))
    (hfc : ∀ r ∈ s.change_inputs, ¬(r.orig_txid = o ∧ r.new_txid = n)) :
    record_replacement o n ts s = .ok
      { s with
        replacements := s.replacements ++ [⟨o, n, a, i, ov, nv, ov - nv, ts⟩],
        change_inputs := s.change_inputs ++
          (distinctInputAddrs s o).map (fun inp => ⟨o, n, a, i, inp, ts⟩) } := by
  have hrepl : insertOrIgnoreRepl s.replacements ⟨o, n, a, i, ov, nv, ov - nv, ts⟩ =
      s.replacements ++ [⟨o, n, a, i, ov, nv, ov - nv, ts⟩] := by
    apply insertOrIgnoreRepl_of_fresh
    intro x hx
    by_cases h1 : x.orig_txid = o
    · have h2 : x.new_txid ≠ n := fun h2 => (hfr x hx) ⟨h1, h2⟩
      simp [replKeyEq, h2]
    · simp [replKeyEq, h1]
  have hbase : ∀ r ∈ s.change_inputs, ∀ inp ∈ distinctInputAddrs s o,
      ciKeyEq r ⟨o, n, a, i, inp, ts⟩ = false := by
    intro r hr inp _
    by_cases h1 : r.orig_txid = o
    · have h2 : r.new_txid ≠ n := fun h2 => (hfc r hr) ⟨h1, h2⟩
      simp [ciKeyEq, h2]
    · simp [ciKeyEq, h1]
  have hcis := foldCI_eq_append o n ts a i (distinctInputAddrs s o) s.change_inputs
    (List.nodup_dedup _) hbase
  simp only [record_replacement, hk, Bool.not_true, ha, hd]
  rw [if_neg (by simp)]
  rw [if_neg (by simp)]
  rw [if_neg (not_le.mpr hlt)]
  rw [hrepl, hcis]

/-- Scenario A of the spec, used as the witness input for C1: orig outputs
[(0,"A",1000),(1,"B",500)], new outputs [(0,"A",1000),(1,"B",480)], orig
funded by input addresses I1 and I2. -/
def storeA : Store :=
  { emptyStore with
    tx_outputs := [⟨"o", 0, some "A", some 1000⟩, ⟨"o", 1, some "B", some 500⟩,
                   ⟨"n", 0, some "A", some 1000⟩, ⟨"n", 1, some "B", some 480⟩],
    tx_inputs := [⟨"o", "p", 0, some "I1", some 700, 1⟩,
                  ⟨"o", "p", 1, some "I2", some 900, 1⟩] }

/-- Witness for C1 at Scenario A: change address B, index 1, old 500,
new 480, diff 20, one mapping row per distinct input address. -/
theorem record_replacement_single_shrink_witness :
    record_replacement "o" "n" "T" storeA = .ok
      { storeA with
        replacements := [⟨"o", "n", some "B", 1, 500, 480, 20, "T"⟩],
        change_inputs := [⟨"o", "n", some "B", 1, some "I1", "T"⟩,
                          ⟨"o", "n", some "B", 1, some "I2", "T"⟩] } :=
  record_replacement_single_shrink (by decide) (by decide) (by decide)
    (by decide) (by decide) (by decide)

end RBFTracker
namespace RBFTracker

/-- C2: For every pair (orig_txid, new_txid), if the sets of persisted
output indices differ, or the address at any shared index differs, or the
number of indices whose value differs is not exactly one, or at the single
differing index the new value is greater than or equal to the old value,
then record_replacement records nothing: the store is returned unchanged
(so no ReplacementEvent row and no ChangeInputMapping row is inserted). -/
theorem record_replacement_rejects {s : Store} {o n ts : String}
    (hrej : keySetEq (outputsDict s o) (outputsDict s n) = false ∨
      addrMismatch (outputsDict s o) (outputsDict s n) = true ∨
      (valueDiffs (outputsDict s o) (outputsDict s n)).length ≠ 1 ∨
      (∃ i a ov nv, valueDiffs (outputsDict s o) (outputsDict s n) =
        [(i, a, some ov, some nv)] ∧ ov ≤ nv)) :
    record_replacement o n ts s = .ok s := by
  simp only [record_replacement]
  by_cases hk : keySetEq (outputsDict s o) (outputsDict s n) = true
  case neg =>
    have hk2 : keySetEq (outputsDict s o) (outputsDict s n) = false :=
      Bool.eq_false_iff.mpr hk
    simp [hk2]
  case pos =>
    simp only [hk, Bool.not_true]
    rw [if_neg (by simp)]
    by_cases hm : addrMismatch (outputsDict s o) (outputsDict s n) = true
    · rw [if_pos hm]
    · have hm2 : addrMismatch (outputsDict s o) (outputsDict s n) = false :=
        Bool.eq_false_iff.mpr hm
      rw [if_neg (by simp [hm2])]
      rcases hrej with h | h | h | h
      · rw [hk] at h; cases h
      · exact absurd h hm
      · cases hv : valueDiffs (outputsDict s o) (outputsDict s n) with
        | nil => rfl
        | cons x xs =>
          cases xs with
          | nil =>
            rw [hv] at h
            simp at h
          | cons y ys => rfl
      · obtain ⟨i, a, ov, nv, hv, hge⟩ := h
        rw [hv]
        dsimp only
        rw [if_pos hge]

/-- Scenario B of the spec, used as the witness input for C2: two output
indices differ in value between orig and new, so detection must reject. -/
def storeB : Store :=
  { storeA with
    tx_outputs := [⟨"o", 0, some "A", some 1000⟩, ⟨"o", 1, some "B", some 500⟩,
                   ⟨"n", 0, some "A", some 900⟩, ⟨"n", 1, some "B", some 480⟩] }

/-- Witness for C2 at Scenario B: two differing indices, nothing recorded. -/
theorem record_replacement_rejects_witness :
    (valueDiffs (outputsDict storeB "o") (outputsDict storeB "n")).length ≠ 1 ∧
      record_replacement "o" "n" "T" storeB = .ok storeB :=
  ⟨by decide, record_replacement_rejects (Or.inr (Or.inr (Or.inl (by decide))))⟩

end RBFTracker
namespace RBFTracker

theorem sqlNullEq_true_iff {x y : Option String} :
    sqlNullEq x y = true ↔ ∃ z, x = some z ∧ y = some z := by
  cases x with
  | none => simp [sqlNullEq]
  | some a =>
    cases y with
    | none => simp [sqlNullEq]
    | some b =>
      simp only [sqlNullEq, beq_iff_eq, Option.some.injEq]
      exact ⟨fun h => ⟨a, rfl, h.symm⟩, fun ⟨z, h1, h2⟩ => h1.trans h2.symm⟩

theorem replKeyEq_true_iff {a b : ReplacementRow} : replKeyEq a b = true ↔
    (a.orig_txid = b.orig_txid ∧ a.new_txid = b.new_txid ∧
      (∃ z, a.change_address = some z ∧ b.change_address = some z) ∧
      a.change_vout_index = b.change_vout_index) := by
  simp [replKeyEq, sqlNullEq_true_iff, and_assoc]

theorem ciKeyEq_true_iff {a b : ChangeInputRow} : ciKeyEq a b = true ↔
    (a.orig_txid = b.orig_txid ∧ a.new_txid = b.new_txid ∧
      (∃ z, a.change_address = some z ∧ b.change_address = some z) ∧
      (∃ w, a.input_address = some w ∧ b.input_address = some w) ∧
      a.change_vout_index = b.change_vout_index) := by
  simp [ciKeyEq, sqlNullEq_true_iff, and_assoc]

/-- C3: Inserting a ReplacementEvent with the same primary key
(orig_txid, new_txid, change_address, change_vout_index) twice leaves
exactly one row with that key in replacements, and inserting a
ChangeInputMapping with the same primary key twice leaves exactly one row
with that key in change_inputs: both INSERT OR IGNORE operations are
idempotent and the duplicate attempt is a no-op, not an error. -/
theorem duplicate_key_insert_idempotent
    (lr : List ReplacementRow) (r1 r2 : ReplacementRow)
    (lc : List ChangeInputRow) (c1 c2 : ChangeInputRow)
    (hkr : replKeyEq r2 r1 = true)
    (hfr : ∀ x ∈ lr, replKeyEq x r1 = false)
    (hkc : ciKeyEq c2 c1 = true)
    (hfc : ∀ x ∈ lc, ciKeyEq x c1 = false) :
    (insertOrIgnoreRepl (insertOrIgnoreRepl lr r1) r2).countP
        (fun x => replKeyEq x r1) = 1 ∧
      (insertOrIgnoreCI (insertOrIgnoreCI lc c1) c2).countP
        (fun x => ciKeyEq x c1) = 1 := by
  constructor
  · obtain ⟨h1, h2, ⟨z, hz2, hz1⟩, h4⟩ := replKeyEq_true_iff.mp hkr
    have hrefl : replKeyEq r1 r1 = true :=
      replKeyEq_true_iff.mpr ⟨rfl, rfl, ⟨z, hz1, hz1⟩, rfl⟩
    have h12 : replKeyEq r1 r2 = true :=
      replKeyEq_true_iff.mpr ⟨h1.symm, h2.symm, ⟨z, hz1, hz2⟩, h4.symm⟩
    rw [insertOrIgnoreRepl_of_fresh hfr]
    have hsecond : insertOrIgnoreRepl (lr ++ [r1]) r2 = lr ++ [r1] := by
      unfold insertOrIgnoreRepl
      rw [if_pos]
      exact List.any_eq_true.mpr
        ⟨r1, List.mem_append_right _ (List.mem_singleton.mpr rfl), h12⟩
    rw [hsecond, List.countP_append]
    have hzero : lr.countP (fun x => replKeyEq x r1) = 0 :=
      List.countP_eq_zero.mpr (fun x hx => by rw [hfr x hx]; exact Bool.false_ne_true)
    simp [hzero, List.countP_cons, hrefl]
  · obtain ⟨h1, h2, ⟨z, hz2, hz1⟩, ⟨w, hw2, hw1⟩, h5⟩ := ciKeyEq_true_iff.mp hkc
    have hrefl : ciKeyEq c1 c1 = true :=
      ciKeyEq_true_iff.mpr ⟨rfl, rfl, ⟨z, hz1, hz1⟩, ⟨w, hw1, hw1⟩, rfl⟩
    have h12 : ciKeyEq c1 c2 = true :=
      ciKeyEq_true_iff.mpr ⟨h1.symm, h2.symm, ⟨z, hz1, hz2⟩, ⟨w, hw1, hw2⟩, h5.symm⟩
    rw [insertOrIgnoreCI_of_fresh hfc]
    have hsecond : insertOrIgnoreCI (lc ++ [c1]) c2 = lc ++ [c1] := by
      unfold insertOrIgnoreCI
      rw [if_pos]
      exact List.any_eq_true.mpr
        ⟨c1, List.mem_append_right _ (List.mem_singleton.mpr rfl), h12⟩
    rw [hsecond, List.countP_append]
    have hzero : lc.countP (fun x => ciKeyEq x c1) = 0 :=
      List.countP_eq_zero.mpr (fun x hx => by rw [hfc x hx]; exact Bool.false_ne_true)
    simp [hzero, List.countP_cons, hrefl]

/-- Witness for C3: a concrete event row and mapping row inserted twice
into empty tables each leave exactly one row. -/
theorem duplicate_key_insert_idempotent_witness :
    (insertOrIgnoreRepl (insertOrIgnoreRepl []
        ⟨"o", "n", some "B", 1, 500, 480, 20, "T1"⟩)
        ⟨"o", "n", some "B", 1, 500, 490, 10, "T2"⟩).countP
      (fun x => replKeyEq x ⟨"o", "n", some "B", 1, 500, 480, 20, "T1"⟩) = 1 ∧
    (insertOrIgnoreCI (insertOrIgnoreCI []
        ⟨"o", "n", some "B", 1, some "I1", "T1"⟩)
        ⟨"o", "n", some "B", 1, some "I1", "T2"⟩).countP
      (fun x => ciKeyEq x ⟨"o", "n", some "B", 1, some "I1", "T1"⟩) = 1 :=
  duplicate_key_insert_idempotent [] _ _ [] _ _
    (by decide) (by decide) (by decide) (by decide)

end RBFTracker
namespace RBFTracker

/-- C4: After purge_old completes (cutoff is the retention-window
boundary): every ChangeInputMapping row present before the purge is still
present regardless of age; every Transaction row with fetched_at older
than the window, every RBFCandidate row with added_at older than the
window and every ReplacementEvent row with detected_at older than the
window is removed; and no TxInput or TxOutput row remains whose txid has
no matching Transaction row. -/
theorem purge_old_retention (s : Store) (cutoff : String) :
    (purge_old cutoff s).change_inputs = s.change_inputs ∧
    (∀ r ∈ s.tx, sqlTextLt r.fetched_at cutoff = true → r ∉ (purge_old cutoff s).tx) ∧
    (∀ r ∈ s.rbf_txs, sqlTextLt r.added_at cutoff = true → r ∉ (purge_old cutoff s).rbf_txs) ∧
    (∀ r ∈ s.replacements, sqlTextLt r.detected_at cutoff = true →
      r ∉ (purge_old cutoff s).replacements) ∧
    (∀ r ∈ (purge_old cutoff s).tx_inputs,
      ∃ t ∈ (purge_old cutoff s).tx, t.txid = r.txid) ∧
    (∀ r ∈ (purge_old cutoff s).tx_outputs,
      ∃ t ∈ (purge_old cutoff s).tx, t.txid = r.txid) := by
  refine ⟨rfl, ?_, ?_, ?_, ?_, ?_⟩
  · intro r _ hold hmem
    have := (List.mem_filter.mp hmem).2
    simp [hold] at this
  · intro r _ hold hmem
    have := (List.mem_filter.mp hmem).2
    simp [hold] at this
  · intro r _ hold hmem
    have := (List.mem_filter.mp hmem).2
    simp [hold] at this
  · intro r hmem
    have hp := (List.mem_filter.mp hmem).2
    obtain ⟨t, ht, hbeq⟩ := List.any_eq_true.mp hp
    exact ⟨t, ht, by simpa using hbeq⟩
  · intro r hmem
    have hp := (List.mem_filter.mp hmem).2
    obtain ⟨t, ht, hbeq⟩ := List.any_eq_true.mp hp
    exact ⟨t, ht, by simpa using hbeq⟩

/-- A concrete store for the C4 witness: one old and one fresh row in each
aged table, and inputs/outputs attached to both transactions. -/
def storeP : Store :=
  { tx := [⟨"told", "D1", 10, 100⟩, ⟨"tnew", "D9", 10, 100⟩],
    tx_inputs := [⟨"told", "p", 0, some "I1", some 5, 1⟩,
                  ⟨"tnew", "p", 1, some "I2", some 5, 1⟩],
    tx_outputs := [⟨"told", 0, some "A", some 7⟩, ⟨"tnew", 0, some "B", some 7⟩],
    rbf_txs := [⟨"told", "D1"⟩, ⟨"tnew", "D9"⟩],
    replacements := [⟨"o", "n", some "B", 1, 500, 480, 20, "D1"⟩],
    change_inputs := [⟨"o", "n", some "B", 1, some "I1", "D1"⟩] }

/-- Witness for C4 at cutoff D5: the change_inputs row survives, the old
tx row is gone, and the orphaned input of the removed transaction is
gone as well (every remaining input has a parent tx row). -/
theorem purge_old_retention_witness :
    (purge_old "D5" storeP).change_inputs = storeP.change_inputs ∧
    (⟨"told", "D1", 10, 100⟩ : TxRow) ∉ (purge_old "D5" storeP).tx ∧
    (∀ r ∈ (purge_old "D5" storeP).tx_inputs,
      ∃ t ∈ (purge_old "D5" storeP).tx, t.txid = r.txid) :=
  ⟨(purge_old_retention storeP "D5").1,
    (purge_old_retention storeP "D5").2.1 ⟨"told", "D1", 10, 100⟩
      (by decide) (by decide),
    (purge_old_retention storeP "D5").2.2.2.2.1⟩

end RBFTracker
namespace RBFTracker

/-- C5: process_added_nocommit marks a fetched transaction an RBFCandidate
if and only if at least one of its inputs has (defaulted) sequence below
0xFFFFFFFE — a row for it appears in rbf_txs exactly when some input
sequence is below the threshold or the txid was already a candidate.  In
particular a transaction whose every input carries sequence == 0xFFFFFFFF
is never inserted into rbf_txs and never triggers record_replacement
(replacements and change_inputs are untouched), even when the store
already holds another transaction consuming one of its outpoints. -/
theorem process_added_rbf_marking {fetch : String → Option TxJson}
    {ts t : String} {s s1 : Store} {tx : TxJson}
    (hf : fetch t = some tx)
    (hp : process_added_nocommit fetch ts t s = .ok s1) :
    ((∃ r ∈ s1.rbf_txs, r.txid = t) ↔
      (tx.vin.any (fun vin => vin.sequence.getD 0 < RBF_SEQ_THRESHOLD) = true ∨
        ∃ r ∈ s.rbf_txs, r.txid = t)) ∧
    ((∀ v ∈ tx.vin, v.sequence = some 0xFFFFFFFF) →
      s1.rbf_txs = s.rbf_txs ∧ s1.replacements = s.replacements ∧
        s1.change_inputs = s.change_inputs) := by
  obtain ⟨_, _, hrbf, hquiet⟩ := process_ok_struct hf hp
  have hveryhigh : (∀ v ∈ tx.vin, v.sequence = some 0xFFFFFFFF) →
      tx.vin.any (fun vin => vin.sequence.getD 0 < RBF_SEQ_THRESHOLD) = false := by
    intro hall
    rw [List.any_eq_false]
    intro v hv
    rw [hall v hv]
    decide
  constructor
  · by_cases hr : tx.vin.any (fun vin => vin.sequence.getD 0 < RBF_SEQ_THRESHOLD) = true
    · rw [if_pos hr] at hrbf
      constructor
      · intro _
        exact Or.inl hr
      · intro _
        rw [hrbf]
        obtain ⟨x, hx, hxt⟩ := insertOrIgnoreRbf_exists s.rbf_txs ⟨t, ts⟩
        exact ⟨x, hx, hxt⟩
    · rw [if_neg hr] at hrbf
      rw [hrbf]
      constructor
      · intro h
        exact Or.inr h
      · rintro (h | h)
        · exact absurd h hr
        · exact h
  · intro hall
    have hfalse := hveryhigh hall
    rw [hfalse] at hrbf
    rw [if_neg (by decide)] at hrbf
    exact ⟨hrbf, hquiet hfalse⟩

/-- Store for the C5 witness: an existing RBF candidate "orig" already
consumes outpoint ("p", 0). -/
def storeD : Store :=
  { emptyStore with
    tx := [⟨"orig", "D1", 10, 100⟩],
    tx_inputs := [⟨"orig", "p", 0, some "I1", some 700, 1⟩],
    tx_outputs := [⟨"orig", 0, some "A", some 1000⟩],
    rbf_txs := [⟨"orig", "D1"⟩] }

/-- The incoming transaction for the C5 witness: its only input reuses the
outpoint ("p", 0) already consumed by "orig", but its sequence is the
final value 0xFFFFFFFF. -/
def txD : TxJson :=
  ⟨some 10, some 100,
    [⟨some "p", some 0, some 0xFFFFFFFF, some ⟨some "I1", some 700⟩⟩],
    [⟨some "A", some 990⟩]⟩

/-- fetch_tx for the C5 witness. -/
def fetchD : String → Option TxJson := fun t => if t = "d" then some txD else none

/-- The store after processing the C5 witness transaction. -/
def storeD1 : Store :=
  (process_added_nocommit fetchD "D2" "d" storeD).toOption.getD emptyStore

/-- Witness for C5: processing txD succeeds, no rbf_txs row appears for
"d", and replacements/change_inputs stay empty even though txD reuses an
outpoint of the stored RBF candidate "orig". -/
theorem process_added_rbf_marking_witness :
    storeD1.rbf_txs = storeD.rbf_txs ∧
      storeD1.replacements = storeD.replacements ∧
      storeD1.change_inputs = storeD.change_inputs :=
  (@process_added_rbf_marking fetchD "D2" "d" storeD storeD1 txD rfl rfl).2 (by decide)

end RBFTracker
namespace RBFTracker

/-- A one-output, no-input transaction used by the C6 counterexample. -/
def txC6 : TxJson := ⟨some 10, some 100, [], [⟨some "X", some 5⟩]⟩

/-- fetch_tx for the C6 scenario. -/
def fetchC6 : String → Option TxJson := fun t => if t = "t1" then some txC6 else none

/-- Store reached by the worker consuming two added events for the same
txid (a transaction that left and re-entered the mempool is re-emitted)
followed by stop. -/
def storeC6 : Store :=
  match workerRun fetchC6 "T" "C" 100
      [Event.added "t1", Event.added "t1", Event.stop] ⟨[], emptyStore, false⟩ with
  | .ok st => st.store
  | .error _ => emptyStore

/-- C6 counterexample: tx_outputs has no uniqueness constraint and
process_added_nocommit uses a plain INSERT for outputs, so the store
reached by processing the same txid twice holds TWO rows with the pair
(txid "t1", vout_index 0) — the claimed at-most-one invariant fails. -/
theorem tx_outputs_duplicate_counterexample :
    storeC6.tx_outputs.countP (fun r => r.txid == "t1" && r.vout_index == 0) = 2 := by
  decide

/-- C6 amended: processing a txid with no pre-existing tx_outputs rows
yields pairwise-distinct vout_index values among its output rows (they
are the enumerate indices), so (txid, vout_index) is unique among rows
written by a single processing of a txid; re-processing the same txid
duplicates the rows, as the counterexample shows. -/
theorem tx_outputs_unique_single_process {fetch : String → Option TxJson}
    {ts t : String} {s s1 : Store} {tx : TxJson}
    (hf : fetch t = some tx)
    (hfresh : ∀ r ∈ s.tx_outputs, r.txid ≠ t)
    (hp : process_added_nocommit fetch ts t s = .ok s1) :
    ((s1.tx_outputs.filter (fun r => r.txid == t)).map
      (fun r => r.vout_index)).Nodup := by
  obtain ⟨_, houts, _, _⟩ := process_ok_struct hf hp
  rw [houts, List.filter_append]
  have h1 : s.tx_outputs.filter (fun r => r.txid == t) = [] := by
    rw [List.filter_eq_nil_iff]
    intro r hr
    simp [hfresh r hr]
  have h2 : (tx.vout.enum.map (fun p =>
        (⟨t, p.1, p.2.scriptpubkey_address, p.2.value⟩ : TxOutputRow))).filter
        (fun r => r.txid == t) =
      tx.vout.enum.map (fun p => ⟨t, p.1, p.2.scriptpubkey_address, p.2.value⟩) := by
    rw [List.filter_eq_self]
    intro r hr
    obtain ⟨p, _, hpr⟩ := List.mem_map.mp hr
    rw [← hpr]
    simp
  rw [h1, h2, List.nil_append, List.map_map]
  exact List.nodup_enum_map_fst _

/-- Store after processing "t1" exactly once, for the C6 amended witness. -/
def storeC6one : Store :=
  (process_added_nocommit fetchC6 "T" "t1" emptyStore).toOption.getD emptyStore

/-- Witness for the C6 amended theorem at a single processing of "t1". -/
theorem tx_outputs_unique_single_process_witness :
    ((storeC6one.tx_outputs.filter (fun r => r.txid == "t1")).map
      (fun r => r.vout_index)).Nodup :=
  @tx_outputs_unique_single_process fetchC6 "T" "t1" emptyStore storeC6one txC6 rfl (by decide) rfl

/-- C7 counterexample: the initial snapshot fetch of Poller.run happens
before the try/except of the polling loop, so a failure there is NOT
swallowed: it propagates and terminates the Poller thread instead of the
loop continuing, refuting the claim for the very first snapshot fetch. -/
theorem poller_initial_failure_counterexample :
    pollerInit (Except.error "connection refused") =
      Except.error "connection refused" := rfl

/-- C7 amended: every steady-state poll cycle catches and swallows a
snapshot fetch failure — the baseline is unchanged and no events are
emitted, and the loop continues with the next cycle after the sleep; only
the initial snapshot fetch (outside the try block) is unprotected and
terminates the thread on failure. -/
theorem pollerStep_swallows_failure (e : String) (st : PollerState) :
    pollerStep (Except.error e) st = (st, []) := rfl

/-- A transaction whose only input object lacks the required txid field:
processing it raises KeyError. -/
def txBad : TxJson := ⟨some 10, some 100, [⟨none, some 0, some 1, none⟩], []⟩

/-- A well-formed transaction queued behind the bad one. -/
def txGood : TxJson := ⟨some 10, some 100, [], [⟨some "X", some 5⟩]⟩

/-- fetch_tx for the C8 scenario. -/
def fetchC8 : String → Option TxJson :=
  fun t => if t = "bad" then some txBad else if t = "good" then some txGood else none

/-- C8 counterexample: a per-transaction PROCESSING failure is not
isolated.  _flush_batch has no try/except, so the KeyError raised while
processing "bad" propagates, the remaining buffered txid "good" is never
processed, and the worker loop aborts. -/
theorem flush_processing_failure_counterexample :
    flushBatch fetchC8 "T" ["bad", "good"] emptyStore =
      .error "KeyError: txid" := rfl

/-- C8 amended: only per-transaction FETCH failures are isolated: a txid
whose fetch fails (fetch_tx swallows the HTTP/network error and returns
None) is skipped and the remaining buffered txids are processed exactly
as if it were absent; a processing failure such as an input object
missing a required field aborts the batch and the worker loop, as the
counterexample shows. -/
theorem flush_fetch_failure_isolated {fetch : String → Option TxJson}
    {ts t : String} {buf : List String} {s : Store} (h : fetch t = none) :
    flushBatch fetch ts (t :: buf) s = flushBatch fetch ts buf s := by
  have hp : process_added_nocommit fetch ts t s = .ok s := by
    simp only [process_added_nocommit, h]
  simp only [flushBatch, hp]

/-- Witness for the C8 amended theorem: a failing fetch in front of the
buffer leaves the rest of the flush unchanged. -/
theorem flush_fetch_failure_isolated_witness :
    fetchC8 "missing" = none ∧
      flushBatch fetchC8 "T" ["missing", "good"] emptyStore =
        flushBatch fetchC8 "T" ["good"] emptyStore :=
  ⟨rfl, flush_fetch_failure_isolated rfl⟩

/-- C9: When the Batch Worker receives a stop event it flushes every txid
still in its buffer, commits, closes the store handle and terminates
(later queue events are left unread), so after a clean shutdown — the
final flush raising no exception — every previously buffered txid whose
fetch succeeds has its Transaction row in the store when the worker
exits. -/
theorem worker_stop_flushes_and_closes {fetch : String → Option TxJson}
    {ts cutoff : String} {batch_size : Nat} {rest : List Event}
    {st : WorkerState} {store1 : Store}
    (hfl : flushBatch fetch ts st.buffer st.store = .ok store1) :
    workerRun fetch ts cutoff batch_size (Event.stop :: rest) st =
        .ok ⟨[], store1, true⟩ ∧
      ∀ t ∈ st.buffer, (fetch t).isSome = true → ∃ r ∈ store1.tx, r.txid = t := by
  constructor
  · simp only [workerRun, hfl]
  · exact flushBatch_tx_present hfl

/-- Worker state holding one buffered txid, for the C9 witness. -/
def stC9 : WorkerState := ⟨["t1"], emptyStore, false⟩

/-- The store produced by the C9 shutdown flush. -/
def storeC9 : Store :=
  (flushBatch fetchC6 "T" ["t1"] emptyStore).toOption.getD emptyStore

/-- Witness for C9: on stop, the buffered txid "t1" is flushed into the
store, the buffer is empty and the connection is closed. -/
theorem worker_stop_flushes_and_closes_witness :
    workerRun fetchC6 "T" "C" 100 [Event.stop] stC9 = .ok ⟨[], storeC9, true⟩ ∧
      ∃ r ∈ storeC9.tx, r.txid = "t1" := by
  have h := @worker_stop_flushes_and_closes fetchC6 "T" "C" 100 [] stC9 storeC9 rfl
  exact ⟨h.1, h.2 "t1" (by decide) rfl⟩

/-- C10: an input object lacking the sequence field is read as sequence 0,
which is below the RBF threshold, so the transaction is marked an
RBFCandidate solely because the field is absent; a transaction JSON
lacking fee or vsize is stored with fee 0 resp. vsize 0 in its
Transaction row. -/
theorem missing_fields_defaults {fetch : String → Option TxJson}
    {ts t : String} {s s1 : Store} {tx : TxJson}
    (hf : fetch t = some tx)
    (hp : process_added_nocommit fetch ts t s = .ok s1) :
    ((∃ v ∈ tx.vin, v.sequence = none) → ∃ r ∈ s1.rbf_txs, r.txid = t) ∧
    (tx.fee = none → tx.vsize = none → (∀ r ∈ s.tx, r.txid ≠ t) →
      ∃ r ∈ s1.tx, r.txid = t ∧ r.fee = 0 ∧ r.vsize = 0) := by
  obtain ⟨htx, _, hrbf, _⟩ := process_ok_struct hf hp
  constructor
  · rintro ⟨v, hv, hseq⟩
    have hany : tx.vin.any (fun vin => vin.sequence.getD 0 < RBF_SEQ_THRESHOLD) = true :=
      List.any_eq_true.mpr ⟨v, hv, by rw [hseq]; decide⟩
    rw [if_pos hany] at hrbf
    rw [hrbf]
    exact insertOrIgnoreRbf_exists s.rbf_txs ⟨t, ts⟩
  · intro hfee hvsize hfresh
    have happ : insertOrIgnoreTx s.tx ⟨t, ts, tx.fee.getD 0, tx.vsize.getD 0⟩ =
        s.tx ++ [⟨t, ts, tx.fee.getD 0, tx.vsize.getD 0⟩] :=
      insertOrIgnoreTx_of_fresh (fun x hx => hfresh x hx)
    rw [htx, happ]
    refine ⟨⟨t, ts, tx.fee.getD 0, tx.vsize.getD 0⟩,
      List.mem_append_right _ (List.mem_singleton.mpr rfl), rfl, ?_, ?_⟩
    · rw [hfee]; rfl
    · rw [hvsize]; rfl

/-- A transaction JSON missing sequence, fee and vsize, for C10. -/
def txC10 : TxJson := ⟨none, none, [⟨some "p", some 0, none, none⟩], []⟩

/-- fetch_tx for the C10 witness. -/
def fetchC10 : String → Option TxJson :=
  fun t => if t = "c10" then some txC10 else none

/-- The store after processing txC10. -/
def storeC10 : Store :=
  (process_added_nocommit fetchC10 "T" "c10" emptyStore).toOption.getD emptyStore

/-- Witness for C10: txC10 is marked RBF purely through the missing
sequence field, and its Transaction row carries fee 0 and vsize 0. -/
theorem missing_fields_defaults_witness :
    (∃ r ∈ storeC10.rbf_txs, r.txid = "c10") ∧
      ∃ r ∈ storeC10.tx, r.txid = "c10" ∧ r.fee = 0 ∧ r.vsize = 0 := by
  have h := @missing_fields_defaults fetchC10 "T" "c10" emptyStore storeC10 txC10 rfl rfl
  exact ⟨h.1 ⟨⟨some "p", some 0, none, none⟩, by decide, rfl⟩,
    h.2 rfl rfl (by decide)⟩

end RBFTracker
